import Mathlib

unseal Rat.mul Rat.inv Rat.add Rat.sub

/-!
Verification development for the georisk-dashboard scoring pipeline.

The definitions below are shallow embeddings of the Python services in
backend/app/services: the NLP event-processing stage
(event_processing_service.py), the GDELT ingest storage step
(gdelt_service.py), the feature-engineering trend computation
(feature_engineering_service.py), the ML ensemble scorer
(ml_risk_scoring_service.py) and the scheduler tick (scheduler_service.py).
Python floats are modelled as exact rationals; Python round(x, 2) is
modelled as exact round-half-to-even on rationals.  Titles and URLs are
modelled as lists of characters.
-/

namespace GeoRisk

/-! ## Character and string helpers -/

/-- Lower-casing of a title, modelling Python str.lower on ASCII text. -/
def lowerChars (s : List Char) : List Char := s.map Char.toLower

/-- A regex word character as used by the classification patterns:
alphanumeric or underscore. -/
def isWordChar (c : Char) : Bool := c.isAlphanum || c == '_'

/-- Split a character list into the maximal runs of characters satisfying
keep, in order.  The first argument accumulates the current run reversed. -/
def splitRuns (keep : Char → Bool) : List Char → List Char → List (List Char)
  | cur, [] => if cur.isEmpty then [] else [cur.reverse]
  | cur, c :: rest =>
    if keep c then splitRuns keep (c :: cur) rest
    else if cur.isEmpty then splitRuns keep [] rest
    else cur.reverse :: splitRuns keep [] rest

/-- The maximal word-character runs of a string.  An all-word-character
keyword matches the regex word-boundary pattern iff it is one of these
runs. -/
def wordTokens (s : List Char) : List (List Char) := splitRuns isWordChar [] s

/-- Number of whitespace-separated words, modelling len(title.split()). -/
def countWords (s : List Char) : ℕ :=
  (splitRuns (fun c => !c.isWhitespace) [] s).length

/-- Whether a title is empty or whitespace-only, modelling
the Python test: not title.strip(). -/
def isBlank (s : List Char) : Bool := s.all Char.isWhitespace

/-- Whether needle occurs at the head of hay. -/
def seqStartsWith : List Char → List Char → Bool
  | [], _ => true
  | _ :: _, [] => false
  | a :: as, b :: bs => a == b && seqStartsWith as bs

/-- Whether needle occurs anywhere inside hay as a contiguous substring,
modelling the Python expression: keyword in title_lower. -/
def seqOccurs (needle : List Char) : List Char → Bool
  | [] => seqStartsWith needle []
  | c :: rest => seqStartsWith needle (c :: rest) || seqOccurs needle rest

/-! ## Event classification (EventProcessingService) -/

/-- The five risk categories of a processed event. -/
inductive RiskCategory where
  | conflict
  | protest
  | diplomatic
  | economic
  | other
deriving DecidableEq

/-- The conflict keyword alternatives of the conflict regex, and the
conflict_keywords list used for severity weighting (same words). -/
def conflictKeywords : List (List Char) :=
  ["attack", "violence", "fight", "battle", "war", "conflict",
   "assault", "military", "bombing", "terrorism", "insurgency"].map
    (fun s => s.toList)

/-- The protest keyword alternatives. -/
def protestKeywords : List (List Char) :=
  ["protest", "demonstration", "rally", "march", "strike", "riot",
   "unrest", "civil"].map (fun s => s.toList)

/-- The diplomatic keyword alternatives. -/
def diplomaticKeywords : List (List Char) :=
  ["meeting", "summit", "negotiation", "treaty", "agreement", "talks",
   "diplomatic", "embassy", "ambassador"].map (fun s => s.toList)

/-- The economic keyword alternatives. -/
def economicKeywords : List (List Char) :=
  ["trade", "economic", "sanctions", "embargo", "tariff", "commerce",
   "inflation", "gdp", "financial", "market"].map (fun s => s.toList)

/-- Case-insensitive word-boundary regex match of an alternation of plain
alphabetic keywords against a title: some keyword occurs in the
lower-cased title delimited by word boundaries, which for an
all-word-character keyword means it is a maximal word-character run. -/
def patternMatches (keywords : List (List Char)) (title : List Char) : Bool :=
  keywords.any (fun k => (wordTokens (lowerChars title)).contains k)

/-- The classification_patterns dictionary, in its declared insertion
order: conflict, protest, diplomatic, economic. -/
def classificationPatterns : List (RiskCategory × List (List Char)) :=
  [(RiskCategory.conflict, conflictKeywords),
   (RiskCategory.protest, protestKeywords),
   (RiskCategory.diplomatic, diplomaticKeywords),
   (RiskCategory.economic, economicKeywords)]

/-- EventProcessingService._classify_event: the first pattern in declared
order that matches the title wins; otherwise the category is other. -/
def classifyEvent (title : List Char) : RiskCategory :=
  match classificationPatterns.find? (fun p => patternMatches p.2 title) with
  | some p => p.1
  | none => RiskCategory.other

/-! ## Severity and confidence (EventProcessingService) -/

/-- The conflict keyword count of _calculate_severity: the number of
conflict keywords that occur as substrings of the lower-cased title.
Each keyword contributes at most 1 (a membership test per keyword). -/
def conflictKeywordCount (title : List Char) : ℕ :=
  conflictKeywords.countP (fun k => seqOccurs k (lowerChars title))

/-- EventProcessingService._calculate_severity:
0.5 + 0.3 times the absolute negative part of the sentiment + 0.1 per
conflict keyword present, clamped to the unit interval. -/
def calcSeverity (title : List Char) (sentiment : ℚ) : ℚ :=
  let baseSeverity : ℚ := 1/2
  let negativeSentimentBoost : ℚ := |min 0 sentiment| * (3/10)
  let conflictBoost : ℚ := (conflictKeywordCount title : ℚ) * (1/10)
  max 0 (min 1 (baseSeverity + negativeSentimentBoost + conflictBoost))

/-- EventProcessingService._calculate_confidence:
0.7 + min(0.2, words/50) + 0.1 for a non-other category, minus 0.2 for a
title shorter than 20 characters, clamped to [0.1, 1]. -/
def calcConfidence (title : List Char) (riskCategory : RiskCategory) : ℚ :=
  let baseConfidence : ℚ := 7/10
  let lengthFactor : ℚ := min (1/5) ((countWords title : ℚ) / 50)
  let categoryFactor : ℚ := if riskCategory ≠ RiskCategory.other then 1/10 else 0
  let lengthPenalty : ℚ := if title.length < 20 then -(1/5) else 0
  max (1/10) (min 1 (baseConfidence + lengthFactor + categoryFactor + lengthPenalty))

/-- EventProcessingService._analyze_sentiment: the TextBlob polarity of the
title, or 0.0 when the analyzer throws.  The external analyzer is a
parameter; none models a raised exception. -/
def analyzeSentiment (analyzer : List Char → Option ℚ) (title : List Char) : ℚ :=
  (analyzer title).getD 0

/-! ## Two-decimal rounding

Python round(x, 2) rounds half to even.  On exact rationals this is the
function below; the scores the services round are modelled exactly. -/

/-- Round a rational to the nearest integer, halves to the even integer. -/
def roundHalfEven (x : ℚ) : ℤ :=
  let n := ⌊x⌋
  if 1/2 < x - n then n + 1
  else if x - n < 1/2 then n
  else if n % 2 = 0 then n else n + 1

/-- Python round(x, 2) on exact rationals. -/
def round2 (x : ℚ) : ℚ := (roundHalfEven (100 * x) : ℚ) / 100

/-! ## Event-processing pipeline state (EventProcessingService) -/

/-- A raw_events row, restricted to the columns the NLP stage reads:
the primary key and the title. -/
structure RawEv where
  id : ℕ
  title : List Char
deriving DecidableEq

/-- A processed_events row as written by _process_single_event. -/
structure ProcessedEv where
  raw_event_id : ℕ
  risk_category : RiskCategory
  sentiment_score : ℚ
  severity_score : ℚ
  confidence : ℚ
deriving DecidableEq

/-- The two tables the NLP stage touches. -/
structure PipelineState where
  raw : List RawEv
  processed : List ProcessedEv
deriving DecidableEq

/-- Number of processed_events rows for a given raw_event_id. -/
def processedCountFor (st : PipelineState) (rid : ℕ) : ℕ :=
  st.processed.countP (fun p => p.raw_event_id == rid)

/-- The outer-join selection of process_raw_events: raw events with no
corresponding processed event. -/
def unprocessedEvents (st : PipelineState) : List RawEv :=
  st.raw.filter (fun ev => processedCountFor st ev.id == 0)

/-- The row _process_single_event inserts for one raw event, or none when
it inserts nothing: a blank title returns early, and any exception during
the unit of work (modelled by errorOn) is caught and logged without an
insert.  The analyzer parameter is the external TextBlob sentiment
polarity; none models an analyzer exception, which _analyze_sentiment
converts to 0.0. -/
def rowOf (analyzer : List Char → Option ℚ) (errorOn : ℕ → Bool)
    (ev : RawEv) : Option ProcessedEv :=
  if isBlank ev.title then none
  else if errorOn ev.id then none
  else
    let cat := classifyEvent ev.title
    let s := analyzeSentiment analyzer ev.title
    some { raw_event_id := ev.id,
           risk_category := cat,
           sentiment_score := round2 s,
           severity_score := round2 (calcSeverity ev.title s),
           confidence := round2 (calcConfidence ev.title cat) }

/-- Effect of _process_single_event on the state. -/
def processSingleEvent (analyzer : List Char → Option ℚ) (errorOn : ℕ → Bool)
    (st : PipelineState) (ev : RawEv) : PipelineState :=
  match rowOf analyzer errorOn ev with
  | none => st
  | some row => { st with processed := st.processed ++ [row] }

/-- EventProcessingService.process_raw_events: select up to batchSize raw
events with no processed event and run _process_single_event on each.
The asyncio batches of 10 all come from this one selection, so the
sequential fold has the same effect on the two tables. -/
def processRawEvents (analyzer : List Char → Option ℚ) (errorOn : ℕ → Bool)
    (batchSize : ℕ) (st : PipelineState) : PipelineState :=
  ((unprocessedEvents st).take batchSize).foldl
    (processSingleEvent analyzer errorOn) st

/-! ## Scheduler tick for the event-processing task (SchedulerService) -/

/-- process_raw_events as seen by the scheduler: the final database state
and whether an exception escaped.  The except-handler of
process_raw_events catches every exception, rolls the session back
(discarding the uncommitted inserts, so the tables are unchanged) and
returns the counter normally, so no exception ever escapes.
commitFails models a storage failure at the final session.commit. -/
def processRawEventsTask (analyzer : List Char → Option ℚ) (errorOn : ℕ → Bool)
    (batchSize : ℕ) (commitFails : Bool) (st : PipelineState) :
    PipelineState × Bool :=
  if commitFails then (st, false)
  else (processRawEvents analyzer errorOn batchSize st, false)

/-- The event_processing entry of the schedules table: interval 1 hour. -/
def eventProcessingIntervalHours : ℕ := 1

/-- SchedulerService._should_run_task: run when never run before, or when
at least interval_hours have elapsed since the stored last run. -/
def shouldRunTask (intervalHours : ℕ) (now : ℤ) (lastRun : Option ℤ) : Bool :=
  match lastRun with
  | none => true
  | some t => decide ((intervalHours : ℤ) * 3600 ≤ now - t)

/-- One scheduler tick for the event-processing task: if due, run the task;
the last_run register is updated to the tick time unless an exception
escaped the task (the loop catches it and leaves the register alone). -/
def schedulerTickEventProcessing (analyzer : List Char → Option ℚ)
    (errorOn : ℕ → Bool) (batchSize : ℕ) (commitFails : Bool)
    (now : ℤ) (lastRun : Option ℤ) (st : PipelineState) :
    PipelineState × Option ℤ :=
  if shouldRunTask eventProcessingIntervalHours now lastRun then
    let r := processRawEventsTask analyzer errorOn batchSize commitFails st
    if r.2 then (r.1, lastRun) else (r.1, some now)
  else (st, lastRun)

/-! ## GDELT ingest storage (GDELTService._store_raw_events) -/

/-- An upstream article as parsed from the GDELT response, with the
seendate already reduced to a UTC day number. -/
structure Article where
  title : List Char
  url : List Char
  domain : List Char
  language : List Char
  event_date : ℤ
deriving DecidableEq

/-- A raw_events row as written by the ingest stage. -/
structure RawEventRow where
  country_id : ℕ
  event_date : ℤ
  title : List Char
  source_url : List Char
  domain : List Char
  language : List Char
deriving DecidableEq

/-- The record _store_raw_events builds for one article: title truncated
at 1000 characters, URL at 500, domain at 100, language at 10. -/
def articleToRow (cid : ℕ) (a : Article) : RawEventRow :=
  { country_id := cid,
    event_date := a.event_date,
    title := a.title.take 1000,
    source_url := a.url.take 500,
    domain := a.domain.take 100,
    language := a.language.take 10 }

/-- GDELTService._store_raw_events: look the country up by code; when
absent, store nothing; otherwise bulk-insert a row per parsed article.
There is no existence check and raw_events has no unique constraint on
(country_id, source_url), so the insert is unconditional. -/
def storeRawEvents (countries : List (ℕ × List Char))
    (db : List RawEventRow) (iso : List Char) (articles : List Article) :
    List RawEventRow :=
  match countries.find? (fun c => c.2 == iso) with
  | none => db
  | some c => db ++ articles.map (articleToRow c.1)

/-- Number of stored raw events with a given country and source URL. -/
def matchingRawCount (db : List RawEventRow) (cid : ℕ) (url : List Char) : ℕ :=
  db.countP (fun r => r.country_id == cid && r.source_url == url)

/-! ## Ensemble scorer (MLRiskScoringService) -/

/-- The model outputs feeding one component of predict_risk_scores.
rfPred and xgbPred are the two regressor outputs on the feature vector;
treeStd is np.std of the per-tree random-forest predictions (a square
root of a rational, hence carried as a parameter).  fallback models the
per-component exception path, which substitutes 50.0 with CI [40, 60]. -/
structure ComponentInput where
  fallback : Bool
  rfPred : ℚ
  xgbPred : ℚ
  treeStd : ℚ
deriving DecidableEq

/-- The value _predict_component returns for one component: the clamped
ensemble prediction and the confidence interval. -/
structure ComponentResult where
  pred : ℚ
  lower : ℚ
  upper : ℚ
deriving DecidableEq

/-- MLRiskScoringService._predict_component: the ensemble prediction is
the mean of the two regressors; the interval is the prediction plus or
minus 1.96 standard deviations, with the lower end clamped below at 0 and
the upper end clamped above at 100; the returned prediction is clamped to
[0, 100] after the interval is formed. -/
def predictComponent (rfPred xgbPred treeStd : ℚ) : ComponentResult :=
  let ensemblePred := (rfPred + xgbPred) / 2
  { pred := max 0 (min 100 ensemblePred),
    lower := max 0 (ensemblePred - (49/25) * treeStd),
    upper := min 100 (ensemblePred + (49/25) * treeStd) }

/-- One component of predict_risk_scores, with the exception fallback. -/
def componentResult (inp : ComponentInput) : ComponentResult :=
  if inp.fallback then { pred := 50, lower := 40, upper := 60 }
  else predictComponent inp.rfPred inp.xgbPred inp.treeStd

/-- The component_weights table: political_stability 0.25. -/
def wPolitical : ℚ := 1/4

/-- The component_weights table: conflict_risk 0.30. -/
def wConflict : ℚ := 3/10

/-- The component_weights table: economic_risk 0.25. -/
def wEconomic : ℚ := 1/4

/-- The component_weights table: institutional_quality 0.20. -/
def wInstitutional : ℚ := 1/5

/-- The prediction dictionary predict_risk_scores returns: the overall
score and the overall CI endpoints are the component-weight combinations
rounded to two decimals; the stored component scores are the individual
predictions rounded to two decimals. -/
structure RiskPrediction where
  overall_score : ℚ
  political_stability : ℚ
  conflict_risk : ℚ
  economic_risk : ℚ
  institutional_quality : ℚ
  overall_lower : ℚ
  overall_upper : ℚ
deriving DecidableEq

/-- MLRiskScoringService.predict_risk_scores, from the per-component model
outputs onward (after the feature vector has been found). -/
def predictRiskScores (pol con eco inst : ComponentInput) : RiskPrediction :=
  let rp := componentResult pol
  let rc := componentResult con
  let re := componentResult eco
  let ri := componentResult inst
  { overall_score := round2 (rp.pred * wPolitical + rc.pred * wConflict +
      re.pred * wEconomic + ri.pred * wInstitutional),
    political_stability := round2 rp.pred,
    conflict_risk := round2 rc.pred,
    economic_risk := round2 re.pred,
    institutional_quality := round2 ri.pred,
    overall_lower := round2 (rp.lower * wPolitical + rc.lower * wConflict +
      re.lower * wEconomic + ri.lower * wInstitutional),
    overall_upper := round2 (rp.upper * wPolitical + rc.upper * wConflict +
      re.upper * wEconomic + ri.upper * wInstitutional) }

/-! ## Feature engineering: event trend (FeatureEngineeringService) -/

/-- Ordinary least-squares slope of y against x, the exact value sklearn
LinearRegression computes; 0 when the design is degenerate (which never
happens for two or more distinct x values). -/
def olsSlope (xs ys : List ℚ) : ℚ :=
  let n : ℚ := xs.length
  let sx := xs.sum
  let sy := ys.sum
  let sxy := ((xs.zip ys).map (fun p => p.1 * p.2)).sum
  let sxx := (xs.map (fun x => x * x)).sum
  let den := n * sxx - sx * sx
  if den = 0 then 0 else (n * sxy - sx * sy) / den

/-- Day offsets 0, 1, ..., k-1 as rationals. -/
def rangeOffsets (k : ℕ) : List ℚ := (List.range k).map (fun i : ℕ => (i : ℚ))

/-- Number of events dated on a given day. -/
def dailyCount (eventDates : List ℤ) (d : ℤ) : ℕ :=
  eventDates.countP (fun e => e == d)

/-- FeatureEngineeringService._calculate_trend: walk every day from
start_date to end_date inclusive, fill missing days with count 0, and
take the least-squares slope of counts against day offsets.  Events are
modelled by their dates (one list entry per event); the daily_counts
dictionary of the source is empty exactly when this list is empty. -/
def calculateTrend (eventDates : List ℤ) (startDate endDate : ℤ) : ℚ :=
  if eventDates.isEmpty then 0
  else
    let numDays := (endDate - startDate + 1).toNat
    let xs := rangeOffsets numDays
    let ys := (List.range numDays).map
      (fun i : ℕ => (dailyCount eventDates (startDate + (i : ℤ)) : ℚ))
    if xs.length < 2 then 0 else olsSlope xs ys

/-- The event window of _generate_event_features for one period: events
with start_date ≤ event_date ≤ target_date where
start_date = target_date - period, i.e. period + 1 calendar days. -/
def windowEvents (eventDates : List ℤ) (target : ℤ) (period : ℕ) :
    List ℤ :=
  eventDates.filter (fun d => decide (target - period ≤ d) && decide (d ≤ target))

/-- The event_trend feature of _generate_event_features for one period:
0 when the window holds no events (the zero-fill branch), otherwise
_calculate_trend over daily counts from start_date to target_date. -/
def eventTrendFeature (eventDates : List ℤ) (target : ℤ) (period : ℕ) : ℚ :=
  let evs := windowEvents eventDates target period
  if evs.isEmpty then 0
  else calculateTrend evs (target - period) target

/-- Modelled from the spec: the event trend the specification describes,
over a window of exactly period calendar days ending at target_date
inclusive, with day offsets 0 to period - 1 and missing days counted as
zero.  Stated only to compare against the source-derived
eventTrendFeature. -/
def specEventTrend (eventDates : List ℤ) (target : ℤ) (period : ℕ) : ℚ :=
  olsSlope (rangeOffsets period)
    ((List.range period).map
      (fun i : ℕ => (dailyCount eventDates (target - period + 1 + (i : ℤ)) : ℚ)))

/-! ## Risk-scoring run (MLRiskScoringService and SchedulerService) -/

/-- A feature_vectors row key.  The JSON feature payload only reaches the
models, which are abstracted by the inputsOf parameter below, so only the
natural key is carried. -/
structure FeatureRow where
  country_id : ℕ
  feature_date : ℤ
deriving DecidableEq

/-- A risk_scores_v2 row as written by store_predictions. -/
structure ScoreRow where
  country_id : ℕ
  score_date : ℤ
  overall_score : ℚ
  political_stability_score : ℚ
  conflict_risk_score : ℚ
  economic_risk_score : ℚ
  institutional_quality_score : ℚ
  confidence_lower : ℚ
  confidence_upper : ℚ
deriving DecidableEq

/-- The feature-vector and score tables the scoring run touches. -/
structure ScoreDB where
  featureVectors : List FeatureRow
  scores : List ScoreRow
deriving DecidableEq

/-- The feature-vector lookup at the head of predict_risk_scores. -/
def lookupFeatureRow (fvs : List FeatureRow) (cid : ℕ) (d : ℤ) :
    Option FeatureRow :=
  fvs.find? (fun f => f.country_id == cid && f.feature_date == d)

/-- The score row store_predictions builds from a prediction. -/
def predictionToScoreRow (cid : ℕ) (d : ℤ) (p : RiskPrediction) : ScoreRow :=
  { country_id := cid,
    score_date := d,
    overall_score := p.overall_score,
    political_stability_score := p.political_stability,
    conflict_risk_score := p.conflict_risk,
    economic_risk_score := p.economic_risk,
    institutional_quality_score := p.institutional_quality,
    confidence_lower := p.overall_lower,
    confidence_upper := p.overall_upper }

/-- MLRiskScoringService.store_predictions: update the existing row for
(country_id, score_date) if one exists, otherwise insert a new row. -/
def storePredictions (scores : List ScoreRow) (row : ScoreRow) :
    List ScoreRow :=
  if scores.any (fun s => s.country_id == row.country_id &&
      s.score_date == row.score_date) then
    scores.map (fun s =>
      if s.country_id == row.country_id && s.score_date == row.score_date
      then row else s)
  else scores ++ [row]

/-- MLRiskScoringService.predict_risk_scores: none when no feature vector
exists for (country_id, target_date) — the early return of the source —
otherwise the prediction built from the model outputs on that vector.
inputsOf abstracts the trained per-component regressors evaluated on the
stored features. -/
def predictRiskScoresDB
    (inputsOf : FeatureRow →
      ComponentInput × ComponentInput × ComponentInput × ComponentInput)
    (db : ScoreDB) (cid : ℕ) (d : ℤ) : Option RiskPrediction :=
  match lookupFeatureRow db.featureVectors cid d with
  | none => none
  | some fv =>
    some (predictRiskScores (inputsOf fv).1 (inputsOf fv).2.1
      (inputsOf fv).2.2.1 (inputsOf fv).2.2.2)

/-- The loop body of SchedulerService._run_risk_scoring for one country:
if predict_risk_scores returns a prediction, store it; otherwise the
country is skipped and the database is left as it is. -/
def runRiskScoringForCountry
    (inputsOf : FeatureRow →
      ComponentInput × ComponentInput × ComponentInput × ComponentInput)
    (db : ScoreDB) (cid : ℕ) (d : ℤ) : ScoreDB :=
  match predictRiskScoresDB inputsOf db cid d with
  | none => db
  | some p =>
    { db with scores := storePredictions db.scores (predictionToScoreRow cid d p) }

/-! ## Definitions taken from the claims, for comparison with the source -/

/-- Number of (possibly overlapping) occurrences of needle inside hay. -/
def occurrencesOf (needle hay : List Char) : ℕ :=
  (List.range (hay.length + 1)).countP (fun i => seqStartsWith needle (hay.drop i))

/-- Modelled from the spec: the conflict keyword count the claim describes,
where a keyword occurring k times contributes k.  Stated only to compare
against the source-derived conflictKeywordCount. -/
def specConflictOccurrenceCount (title : List Char) : ℕ :=
  (conflictKeywords.map (fun k => occurrencesOf k (lowerChars title))).sum

/-- Modelled from the spec: the severity formula with the occurrence-based
keyword count of the claim. -/
def specSeverity (title : List Char) (sentiment : ℚ) : ℚ :=
  max 0 (min 1 (1/2 + (3/10) * max 0 (-sentiment) +
    (specConflictOccurrenceCount title : ℚ) / 10))

/-- Side condition under which a component prediction lies inside its own
confidence interval: either the component took the 50.0 fallback, or the
per-tree standard deviation is nonnegative (it always is) and the
unclamped ensemble mean lies in [0, 100]. -/
def componentOK (inp : ComponentInput) : Prop :=
  inp.fallback = true ∨
    (0 ≤ inp.treeStd ∧ 0 ≤ (inp.rfPred + inp.xgbPred) / 2 ∧
      (inp.rfPred + inp.xgbPred) / 2 ≤ 100)

/-! ## Rounding lemmas -/

theorem roundHalfEven_le (x : ℚ) : (roundHalfEven x : ℚ) ≤ x + 1/2 := by
  have h1 := Int.floor_le x
  have h2 := Int.lt_floor_add_one x
  unfold roundHalfEven
  dsimp only
  split_ifs <;> push_cast <;> linarith

theorem le_roundHalfEven (x : ℚ) : x - 1/2 ≤ (roundHalfEven x : ℚ) := by
  have h1 := Int.floor_le x
  have h2 := Int.lt_floor_add_one x
  unfold roundHalfEven
  dsimp only
  split_ifs <;> push_cast <;> linarith

theorem roundHalfEven_mono {x y : ℚ} (h : x ≤ y) :
    roundHalfEven x ≤ roundHalfEven y := by
  by_contra hc
  push_neg at hc
  have h1 : (roundHalfEven x : ℚ) ≤ x + 1/2 := roundHalfEven_le x
  have h2 : y - 1/2 ≤ (roundHalfEven y : ℚ) := le_roundHalfEven y
  have h3 : (roundHalfEven y : ℚ) + 1 ≤ (roundHalfEven x : ℚ) := by
    exact_mod_cast Int.add_one_le_iff.mpr hc
  have hxy : x = y := le_antisymm h (by linarith)
  rw [hxy] at hc
  exact lt_irrefl _ hc

theorem round2_close (x : ℚ) : |round2 x - x| ≤ 1/200 := by
  have h1 := roundHalfEven_le (100 * x)
  have h2 := le_roundHalfEven (100 * x)
  rw [abs_le]
  unfold round2
  constructor <;> linarith

theorem round2_mono {x y : ℚ} (h : x ≤ y) : round2 x ≤ round2 y := by
  have h1 : roundHalfEven (100 * x) ≤ roundHalfEven (100 * y) :=
    roundHalfEven_mono (by linarith)
  have h2 : ((roundHalfEven (100 * x) : ℤ) : ℚ) ≤ (roundHalfEven (100 * y) : ℚ) := by
    exact_mod_cast h1
  unfold round2
  linarith

/-! ## C1: overall score composition -/

/-- C1.  Every prediction of the ensemble scorer has an overall score
equal to the weighted sum of the four component predictions with weights
conflict_risk 0.30, political_stability 0.25, economic_risk 0.25,
institutional_quality 0.20 (rounded to two decimals), it differs from the
same weighted sum of the stored two-decimal component scores by at most
0.01, and component scores (political 40, conflict 80, economic 50,
institutional 30) give overall 52.5. -/
theorem overall_score_weighted_composition (pol con eco inst : ComponentInput) :
    (predictRiskScores pol con eco inst).overall_score =
      round2 ((componentResult pol).pred * wPolitical +
        (componentResult con).pred * wConflict +
        (componentResult eco).pred * wEconomic +
        (componentResult inst).pred * wInstitutional) ∧
    |(predictRiskScores pol con eco inst).overall_score -
      ((predictRiskScores pol con eco inst).political_stability * wPolitical +
       (predictRiskScores pol con eco inst).conflict_risk * wConflict +
       (predictRiskScores pol con eco inst).economic_risk * wEconomic +
       (predictRiskScores pol con eco inst).institutional_quality * wInstitutional)|
      ≤ 1/100 ∧
    (predictRiskScores ⟨false, 40, 40, 0⟩ ⟨false, 80, 80, 0⟩
      ⟨false, 50, 50, 0⟩ ⟨false, 30, 30, 0⟩).overall_score = 105/2 := by
  refine ⟨rfl, ?_, by decide⟩
  have hov : (predictRiskScores pol con eco inst).overall_score =
      round2 ((componentResult pol).pred * wPolitical +
        (componentResult con).pred * wConflict +
        (componentResult eco).pred * wEconomic +
        (componentResult inst).pred * wInstitutional) := rfl
  have hp : (predictRiskScores pol con eco inst).political_stability =
      round2 (componentResult pol).pred := rfl
  have hc : (predictRiskScores pol con eco inst).conflict_risk =
      round2 (componentResult con).pred := rfl
  have he : (predictRiskScores pol con eco inst).economic_risk =
      round2 (componentResult eco).pred := rfl
  have hi : (predictRiskScores pol con eco inst).institutional_quality =
      round2 (componentResult inst).pred := rfl
  rw [hov, hp, hc, he, hi]
  have b0 := round2_close ((componentResult pol).pred * wPolitical +
    (componentResult con).pred * wConflict +
    (componentResult eco).pred * wEconomic +
    (componentResult inst).pred * wInstitutional)
  have b1 := round2_close (componentResult pol).pred
  have b2 := round2_close (componentResult con).pred
  have b3 := round2_close (componentResult eco).pred
  have b4 := round2_close (componentResult inst).pred
  rw [abs_le] at b0 b1 b2 b3 b4 ⊢
  unfold wPolitical wConflict wEconomic wInstitutional at b0 ⊢
  constructor <;> linarith [b0.1, b0.2, b1.1, b1.2, b2.1, b2.2, b3.1, b3.2,
    b4.1, b4.2]

/-! ## C4: classification order -/

/-- C4 (amended).  Classification matches the title case-insensitively
against the four patterns in declared order conflict, protest,
diplomatic, economic, and the first match wins; the title
"Economic sanctions discussed at diplomatic summit" matches both the
diplomatic and the economic pattern and is classified diplomatic, because
diplomatic precedes economic in the declared order. -/
theorem classification_first_match_in_declared_order (t : List Char) :
    classifyEvent t =
      (if patternMatches conflictKeywords t then RiskCategory.conflict
       else if patternMatches protestKeywords t then RiskCategory.protest
       else if patternMatches diplomaticKeywords t then RiskCategory.diplomatic
       else if patternMatches economicKeywords t then RiskCategory.economic
       else RiskCategory.other) ∧
    classifyEvent ("Economic sanctions discussed at diplomatic summit".toList) =
      RiskCategory.diplomatic := by
  constructor
  · unfold classifyEvent classificationPatterns
    by_cases h1 : patternMatches conflictKeywords t = true <;>
    by_cases h2 : patternMatches protestKeywords t = true <;>
    by_cases h3 : patternMatches diplomaticKeywords t = true <;>
    by_cases h4 : patternMatches economicKeywords t = true <;>
    simp [List.find?_cons, h1, h2, h3, h4]
  · decide

/-- C4 counterexample.  The scenario title is classified diplomatic, not
economic as the claim states. -/
theorem classification_s3_counterexample :
    classifyEvent ("Economic sanctions discussed at diplomatic summit".toList) =
      RiskCategory.diplomatic ∧
    classifyEvent ("Economic sanctions discussed at diplomatic summit".toList) ≠
      RiskCategory.economic := by
  decide

/-! ## C5: severity formula -/

/-- C5 (amended).  Severity is 0.5 + 0.3 times the negative part of the
sentiment + 0.1 per distinct conflict keyword occurring as a substring of
the lower-cased title (each keyword contributing at most one), clamped to
[0, 1]; the scenario title has keyword count 3 and severity 1.0 at
sentiment -0.8. -/
theorem severity_formula (t : List Char) (s : ℚ) :
    calcSeverity t s =
      max 0 (min 1 (1/2 + (3/10) * max 0 (-s) +
        (conflictKeywordCount t : ℚ) / 10)) ∧
    conflictKeywordCount ("Bombing and terrorism attack kills 10".toList) = 3 ∧
    calcSeverity ("Bombing and terrorism attack kills 10".toList) (-(4/5)) = 1 := by
  refine ⟨?_, by decide, by decide⟩
  have habs : |min 0 s| = max 0 (-s) := by
    rcases le_total s 0 with h | h
    · rw [min_eq_right h, abs_of_nonpos h, max_eq_right (by linarith)]
    · rw [min_eq_left h, abs_zero, max_eq_left (by linarith)]
  have harg : 1/2 + |min 0 s| * (3/10) + (conflictKeywordCount t : ℚ) * (1/10) =
      1/2 + (3/10) * max 0 (-s) + (conflictKeywordCount t : ℚ) / 10 := by
    rw [habs]; ring
  unfold calcSeverity
  dsimp only
  rw [harg]

/-- C5 counterexample.  On the title "war war" with sentiment 0 the code
counts the keyword war once (a membership test per keyword) and yields
severity 0.6, while the occurrence-count formula of the claim yields
0.7. -/
theorem severity_occurrence_counterexample :
    calcSeverity ("war war".toList) 0 = 3/5 ∧
    specSeverity ("war war".toList) 0 = 7/10 ∧
    calcSeverity ("war war".toList) 0 ≠ specSeverity ("war war".toList) 0 := by
  decide

/-! ## C8: sentiment-analyzer failure -/

theorem round2_zero : round2 0 = 0 := by decide

/-- C8 (amended).  When the sentiment analyzer throws on a raw event whose
title is not blank and whose unit of work raises no other error, the
stored row has sentiment 0.0, a severity computed by the formula with
sentiment 0, and the ordinary confidence of the formula for that title
and category: the confidence is not halved. -/
theorem sentiment_failure_row (analyzer : List Char → Option ℚ)
    (errorOn : ℕ → Bool) (ev : RawEv)
    (hfail : analyzer ev.title = none)
    (hblank : isBlank ev.title = false)
    (herr : errorOn ev.id = false) :
    rowOf analyzer errorOn ev =
      some { raw_event_id := ev.id,
             risk_category := classifyEvent ev.title,
             sentiment_score := 0,
             severity_score := round2 (calcSeverity ev.title 0),
             confidence := round2 (calcConfidence ev.title (classifyEvent ev.title)) } := by
  unfold rowOf
  rw [hblank, herr]
  simp only [Bool.false_eq_true, if_false]
  unfold analyzeSentiment
  rw [hfail]
  simp only [Option.getD_none, round2_zero]

/-- C8 witness. -/
theorem sentiment_failure_row_witness :
    rowOf (fun _ => none) (fun _ => false) ⟨1, "War".toList⟩ =
      some { raw_event_id := 1,
             risk_category := classifyEvent ("War".toList),
             sentiment_score := 0,
             severity_score := round2 (calcSeverity ("War".toList) 0),
             confidence := round2 (calcConfidence ("War".toList)
               (classifyEvent ("War".toList))) } :=
  sentiment_failure_row (fun _ => none) (fun _ => false) ⟨1, "War".toList⟩
    rfl (by decide) rfl

/-- C8 counterexample.  On the title "War" with a throwing analyzer the
stored confidence is the full formula confidence 0.62, not half of it. -/
theorem sentiment_failure_confidence_counterexample :
    ((rowOf (fun _ => none) (fun _ => false) ⟨1, "War".toList⟩).map
      ProcessedEv.confidence) =
      some (round2 (calcConfidence ("War".toList) (classifyEvent ("War".toList)))) ∧
    ((rowOf (fun _ => none) (fun _ => false) ⟨1, "War".toList⟩).map
      ProcessedEv.confidence) ≠
      some ((1/2) * round2 (calcConfidence ("War".toList)
        (classifyEvent ("War".toList)))) := by
  decide

/-! ## C2: ingest idempotency -/

/-- C2 (amended).  When the country code resolves, _store_raw_events
appends one raw_events row per parsed article unconditionally: there is
no dedup on (country, source_url), so re-ingesting the same article adds
one more matching row each time instead of being a no-op. -/
theorem ingest_appends_unconditionally (countries : List (ℕ × List Char))
    (db : List RawEventRow) (iso : List Char) (articles : List Article)
    (c : ℕ × List Char)
    (hfind : countries.find? (fun p => p.2 == iso) = some c) :
    storeRawEvents countries db iso articles =
      db ++ articles.map (articleToRow c.1) ∧
    ∀ a : Article,
      matchingRawCount (storeRawEvents countries db iso [a]) c.1 (a.url.take 500) =
        matchingRawCount db c.1 (a.url.take 500) + 1 := by
  constructor
  · unfold storeRawEvents
    rw [hfind]
  · intro a
    unfold storeRawEvents matchingRawCount
    rw [hfind]
    rw [List.countP_append]
    simp [articleToRow]

/-- C2 witness. -/
theorem ingest_appends_unconditionally_witness :
    storeRawEvents [(1, "US".toList)] []
        ("US".toList) [⟨"t".toList, "u".toList, "d".toList, "eng".toList, 0⟩] =
      [] ++ [⟨"t".toList, "u".toList, "d".toList, "eng".toList, 0⟩].map
        (articleToRow 1) ∧
    ∀ a : Article,
      matchingRawCount (storeRawEvents [(1, "US".toList)] []
          ("US".toList) [a]) 1 (a.url.take 500) =
        matchingRawCount [] 1 (a.url.take 500) + 1 :=
  ingest_appends_unconditionally [(1, "US".toList)] []
    ("US".toList) [⟨"t".toList, "u".toList, "d".toList, "eng".toList, 0⟩]
    (1, "US".toList) rfl

/-- C2 counterexample.  Ingesting the same article twice for the same
country leaves two raw_events rows with that (country, source_url), not
one. -/
theorem ingest_twice_counterexample :
    matchingRawCount
      (storeRawEvents [(1, "US".toList)]
        (storeRawEvents [(1, "US".toList)] [] ("US".toList)
          [⟨"t".toList, "u".toList, "d".toList, "eng".toList, 0⟩])
        ("US".toList)
        [⟨"t".toList, "u".toList, "d".toList, "eng".toList, 0⟩])
      1 ("u".toList) = 2 ∧
    matchingRawCount
      (storeRawEvents [(1, "US".toList)]
        (storeRawEvents [(1, "US".toList)] [] ("US".toList)
          [⟨"t".toList, "u".toList, "d".toList, "eng".toList, 0⟩])
        ("US".toList)
        [⟨"t".toList, "u".toList, "d".toList, "eng".toList, 0⟩])
      1 ("u".toList) ≠ 1 := by
  decide

/-! ## C6: confidence-interval bracketing -/

theorem component_bracket (inp : ComponentInput) (h : componentOK inp) :
    (componentResult inp).lower ≤ (componentResult inp).pred ∧
    (componentResult inp).pred ≤ (componentResult inp).upper := by
  by_cases hb : inp.fallback = true
  · unfold componentResult
    rw [hb]
    norm_num
  · obtain ⟨hs, h0, h100⟩ := h.resolve_left hb
    have hb' : inp.fallback = false := by
      revert hb; cases inp.fallback <;> simp
    unfold componentResult
    rw [hb']
    simp only [Bool.false_eq_true, if_false]
    unfold predictComponent
    dsimp only
    have hks : 0 ≤ (49/25 : ℚ) * inp.treeStd := by positivity
    constructor
    · rw [min_eq_right h100, max_eq_right h0]
      exact max_le h0 (by linarith)
    · rw [min_eq_right h100, max_eq_right h0]
      exact le_min h100 (by linarith)

/-- C6 (amended).  Whenever every component either took the 50.0 fallback
with CI [40, 60] or had its unclamped ensemble mean inside [0, 100] (with
nonnegative per-tree standard deviation), the overall confidence interval
brackets the overall score.  The code forms each CI from the unclamped
mean, clamps only the lower end at 0 and only the upper end at 100, and
clamps the prediction afterwards, so the bracketing can fail when an
ensemble mean leaves [0, 100]. -/
theorem overall_ci_brackets_score (pol con eco inst : ComponentInput)
    (h1 : componentOK pol) (h2 : componentOK con)
    (h3 : componentOK eco) (h4 : componentOK inst) :
    (predictRiskScores pol con eco inst).overall_lower ≤
      (predictRiskScores pol con eco inst).overall_score ∧
    (predictRiskScores pol con eco inst).overall_score ≤
      (predictRiskScores pol con eco inst).overall_upper := by
  obtain ⟨l1, u1⟩ := component_bracket pol h1
  obtain ⟨l2, u2⟩ := component_bracket con h2
  obtain ⟨l3, u3⟩ := component_bracket eco h3
  obtain ⟨l4, u4⟩ := component_bracket inst h4
  constructor
  · apply round2_mono
    unfold wPolitical wConflict wEconomic wInstitutional
    linarith
  · apply round2_mono
    unfold wPolitical wConflict wEconomic wInstitutional
    linarith

/-- C6 witness. -/
theorem overall_ci_brackets_score_witness :
    (predictRiskScores ⟨true, 0, 0, 0⟩ ⟨true, 0, 0, 0⟩ ⟨true, 0, 0, 0⟩
      ⟨true, 0, 0, 0⟩).overall_lower ≤
      (predictRiskScores ⟨true, 0, 0, 0⟩ ⟨true, 0, 0, 0⟩ ⟨true, 0, 0, 0⟩
        ⟨true, 0, 0, 0⟩).overall_score ∧
    (predictRiskScores ⟨true, 0, 0, 0⟩ ⟨true, 0, 0, 0⟩ ⟨true, 0, 0, 0⟩
      ⟨true, 0, 0, 0⟩).overall_score ≤
      (predictRiskScores ⟨true, 0, 0, 0⟩ ⟨true, 0, 0, 0⟩ ⟨true, 0, 0, 0⟩
        ⟨true, 0, 0, 0⟩).overall_upper :=
  overall_ci_brackets_score ⟨true, 0, 0, 0⟩ ⟨true, 0, 0, 0⟩ ⟨true, 0, 0, 0⟩
    ⟨true, 0, 0, 0⟩ (Or.inl rfl) (Or.inl rfl) (Or.inl rfl) (Or.inl rfl)

/-- C6 counterexample.  When every component has regressor outputs 100 and
110 (ensemble mean 105, above the score range) and zero tree spread, the
prediction is clamped to 100 but the lower CI endpoint stays at 105, so
the overall lower bound exceeds the overall score. -/
theorem overall_ci_counterexample :
    ¬ ((predictRiskScores ⟨false, 100, 110, 0⟩ ⟨false, 100, 110, 0⟩
        ⟨false, 100, 110, 0⟩ ⟨false, 100, 110, 0⟩).overall_lower ≤
      (predictRiskScores ⟨false, 100, 110, 0⟩ ⟨false, 100, 110, 0⟩
        ⟨false, 100, 110, 0⟩ ⟨false, 100, 110, 0⟩).overall_score) := by
  decide

/-! ## C7: event trend window -/

theorem dailyCount_window (eventDates : List ℤ) (target : ℤ) (period : ℕ)
    (d : ℤ) (h1 : target - period ≤ d) (h2 : d ≤ target) :
    dailyCount (windowEvents eventDates target period) d =
      dailyCount eventDates d := by
  unfold dailyCount windowEvents
  rw [List.countP_filter]
  have hpt : ∀ e : ℤ,
      ((e == d) && (decide (target - ↑period ≤ e) && decide (e ≤ target))) =
        (e == d) := by
    intro e
    by_cases he : e = d
    · subst he
      simp [h1, h2]
    · simp [he]
  simp only [hpt]

/-- C7 (amended).  For a period of w days the event features are computed
over the w + 1 calendar days from target_date - w to target_date
inclusive, and when that window holds at least one event the trend is the
least-squares slope of the daily event counts over day offsets 0..w with
missing days counted as 0. -/
theorem event_trend_window (eventDates : List ℤ) (target : ℤ) (period : ℕ)
    (hper : 1 ≤ period)
    (hne : (windowEvents eventDates target period).isEmpty = false) :
    eventTrendFeature eventDates target period =
      olsSlope (rangeOffsets (period + 1))
        ((List.range (period + 1)).map
          (fun i : ℕ => (dailyCount eventDates (target - period + (i : ℤ)) : ℚ))) := by
  unfold eventTrendFeature
  dsimp only
  rw [hne]
  simp only [Bool.false_eq_true, if_false]
  unfold calculateTrend
  dsimp only
  rw [hne]
  simp only [Bool.false_eq_true, if_false]
  have hnd : (target - (target - (period : ℤ)) + 1).toNat = period + 1 := by
    omega
  rw [hnd]
  have hlen : ¬ ((rangeOffsets (period + 1)).length < 2) := by
    have hl2 : (rangeOffsets (period + 1)).length = period + 1 := by
      simp only [rangeOffsets, List.length_map, List.length_range]
    omega
  rw [if_neg hlen]
  congr 1
  apply List.map_congr_left
  intro i hi
  have hi' : i < period + 1 := List.mem_range.mp hi
  have hb1 : target - (period : ℤ) ≤ target - (period : ℤ) + i := by omega
  have hb2 : target - (period : ℤ) + i ≤ target := by omega
  rw [dailyCount_window eventDates target period _ hb1 hb2]

/-- C7 witness. -/
theorem event_trend_window_witness :
    eventTrendFeature [0] 0 1 =
      olsSlope (rangeOffsets 2)
        ((List.range 2).map
          (fun i : ℕ => (dailyCount [0] (0 - (1 : ℤ) + (i : ℤ)) : ℚ))) :=
  event_trend_window [0] 0 1 (by decide) (by decide)

/-- C7 counterexample.  Three events seven days before the target and five
events on the target day: the code computes the slope over the eight days
of the window, 5/21 per day, while the seven-day zero-filled series of the
claim has exact least-squares slope 3/14 (roughly 0.214, not 0.464). -/
theorem event_trend_counterexample :
    eventTrendFeature [0, 0, 0, 6, 6, 6, 6, 6] 6 7 = 5/21 ∧
    specEventTrend [0, 0, 0, 6, 6, 6, 6, 6] 6 7 = 3/14 ∧
    eventTrendFeature [0, 0, 0, 6, 6, 6, 6, 6] 6 7 ≠
      specEventTrend [0, 0, 0, 6, 6, 6, 6, 6] 6 7 := by
  decide

/-! ## C9: storage failure and the scheduler -/

/-- C9 (amended).  When a storage failure hits the event-processing unit
of work, the work is rolled back (the tables are unchanged), but
process_raw_events catches the exception and returns normally, so the
scheduler records the tick time as last_run_at: the failed task is
treated as a success and is not retried at the next tick. -/
theorem storage_failure_tick (analyzer : List Char → Option ℚ)
    (errorOn : ℕ → Bool) (batchSize : ℕ) (now : ℤ) (lastRun : Option ℤ)
    (st : PipelineState)
    (hdue : shouldRunTask eventProcessingIntervalHours now lastRun = true) :
    schedulerTickEventProcessing analyzer errorOn batchSize true now lastRun st =
      (st, some now) := by
  unfold schedulerTickEventProcessing
  rw [hdue]
  simp [processRawEventsTask]

/-- C9 witness. -/
theorem storage_failure_tick_witness :
    schedulerTickEventProcessing (fun _ => some 0) (fun _ => false) 100 true 0
      none ⟨[⟨1, "war".toList⟩], []⟩ = (⟨[⟨1, "war".toList⟩], []⟩, some 0) :=
  storage_failure_tick (fun _ => some 0) (fun _ => false) 100 0 none
    ⟨[⟨1, "war".toList⟩], []⟩ rfl

/-- C9 counterexample.  A due event-processing tick whose commit fails
still advances the last_run_at register to the tick time (while the
database is rolled back), contradicting the claim that the register is
left untouched so that the task retries at the next tick. -/
theorem storage_failure_advances_register_counterexample :
    (schedulerTickEventProcessing (fun _ => some 0) (fun _ => false) 100 true 0
      none ⟨[⟨1, "war".toList⟩], []⟩).2 = some 0 ∧
    (schedulerTickEventProcessing (fun _ => some 0) (fun _ => false) 100 true 0
      none ⟨[⟨1, "war".toList⟩], []⟩).2 ≠ none ∧
    (schedulerTickEventProcessing (fun _ => some 0) (fun _ => false) 100 true 0
      none ⟨[⟨1, "war".toList⟩], []⟩).1 = ⟨[⟨1, "war".toList⟩], []⟩ := by
  decide

/-! ## C10: missing feature vector -/

/-- C10.  When no feature vector exists for (country_id, target_date),
predict_risk_scores returns none without raising, and the risk-scoring
loop body for that country writes no score row and leaves the existing
score rows unchanged: the country is skipped, not treated as a task
failure. -/
theorem missing_features_skip
    (inputsOf : FeatureRow →
      ComponentInput × ComponentInput × ComponentInput × ComponentInput)
    (db : ScoreDB) (cid : ℕ) (d : ℤ)
    (hmiss : lookupFeatureRow db.featureVectors cid d = none) :
    predictRiskScoresDB inputsOf db cid d = none ∧
    runRiskScoringForCountry inputsOf db cid d = db := by
  have h1 : predictRiskScoresDB inputsOf db cid d = none := by
    unfold predictRiskScoresDB
    rw [hmiss]
  refine ⟨h1, ?_⟩
  unfold runRiskScoringForCountry
  rw [h1]

/-- C10 witness. -/
theorem missing_features_skip_witness :
    predictRiskScoresDB
      (fun _ => (⟨true, 0, 0, 0⟩, ⟨true, 0, 0, 0⟩, ⟨true, 0, 0, 0⟩, ⟨true, 0, 0, 0⟩))
      ⟨[], [⟨2, 5, 50, 50, 50, 50, 50, 40, 60⟩]⟩ 1 0 = none ∧
    runRiskScoringForCountry
      (fun _ => (⟨true, 0, 0, 0⟩, ⟨true, 0, 0, 0⟩, ⟨true, 0, 0, 0⟩, ⟨true, 0, 0, 0⟩))
      ⟨[], [⟨2, 5, 50, 50, 50, 50, 50, 40, 60⟩]⟩ 1 0 =
      ⟨[], [⟨2, 5, 50, 50, 50, 50, 50, 40, 60⟩]⟩ :=
  missing_features_skip
    (fun _ => (⟨true, 0, 0, 0⟩, ⟨true, 0, 0, 0⟩, ⟨true, 0, 0, 0⟩, ⟨true, 0, 0, 0⟩))
    ⟨[], [⟨2, 5, 50, 50, 50, 50, 50, 40, 60⟩]⟩ 1 0 rfl

/-! ## C3: processed-event uniqueness -/

theorem foldl_processSingleEvent (analyzer : List Char → Option ℚ)
    (errorOn : ℕ → Bool) :
    ∀ (l : List RawEv) (st : PipelineState),
      l.foldl (processSingleEvent analyzer errorOn) st =
        { raw := st.raw,
          processed := st.processed ++ l.filterMap (rowOf analyzer errorOn) } := by
  intro l
  induction l with
  | nil => intro st; simp
  | cons hd tl ih =>
    intro st
    rw [List.foldl_cons, ih]
    unfold processSingleEvent
    cases h : rowOf analyzer errorOn hd with
    | none => simp [List.filterMap_cons, h]
    | some r => simp [List.filterMap_cons, h]

theorem rowOf_id (analyzer : List Char → Option ℚ) (errorOn : ℕ → Bool)
    (ev : RawEv) (r : ProcessedEv) (h : rowOf analyzer errorOn ev = some r) :
    r.raw_event_id = ev.id := by
  unfold rowOf at h
  split_ifs at h
  rw [← Option.some.inj h]

theorem filterMap_countP_le (analyzer : List Char → Option ℚ)
    (errorOn : ℕ → Bool) (rid : ℕ) :
    ∀ l : List RawEv,
      (l.filterMap (rowOf analyzer errorOn)).countP
          (fun p => p.raw_event_id == rid) ≤
        l.countP (fun ev => ev.id == rid) := by
  intro l
  induction l with
  | nil => simp
  | cons hd tl ih =>
    rw [List.filterMap_cons, List.countP_cons]
    cases h : rowOf analyzer errorOn hd with
    | none => exact le_trans ih (Nat.le_add_right _ _)
    | some r =>
      rw [List.countP_cons, rowOf_id analyzer errorOn hd r h]
      exact Nat.add_le_add_right ih _

theorem countP_id_le_one {l : List RawEv}
    (h : (l.map RawEv.id).Nodup) (rid : ℕ) :
    l.countP (fun ev => ev.id == rid) ≤ 1 := by
  induction l with
  | nil => simp
  | cons hd tl ih =>
    rw [List.map_cons, List.nodup_cons] at h
    obtain ⟨hni, htl⟩ := h
    rw [List.countP_cons]
    by_cases he : hd.id = rid
    · have hz : tl.countP (fun ev => ev.id == rid) = 0 := by
        rw [List.countP_eq_zero]
        intro ev hev
        simp only [beq_iff_eq]
        intro hEq
        exact hni (he ▸ hEq ▸ List.mem_map_of_mem RawEv.id hev)
      simp [hz, he]
    · have hf : (hd.id == rid) = false := by
        simp [he]
      simp only [hf, if_false]
      simpa using ih htl

theorem one_le_filterMap_countP (analyzer : List Char → Option ℚ)
    (errorOn : ℕ → Bool) (ev : RawEv) :
    ∀ l : List RawEv, ev ∈ l → rowOf analyzer errorOn ev ≠ none →
      1 ≤ (l.filterMap (rowOf analyzer errorOn)).countP
        (fun p => p.raw_event_id == ev.id) := by
  intro l
  induction l with
  | nil => intro h; cases h
  | cons hd tl ih =>
    intro hmem hsome
    rw [List.filterMap_cons]
    rcases List.mem_cons.mp hmem with heq | htl
    · cases h : rowOf analyzer errorOn hd with
      | none =>
        rw [heq] at hsome
        exact absurd h hsome
      | some r =>
        have hr : r.raw_event_id = ev.id := by
          rw [← heq] at h
          exact rowOf_id analyzer errorOn ev r h
        rw [List.countP_cons, hr]
        simp
    · have hle := ih htl hsome
      cases h : rowOf analyzer errorOn hd with
      | none => exact hle
      | some r =>
        rw [List.countP_cons]
        exact le_trans hle (Nat.le_add_right _ _)

/-- C3 (amended).  The NLP stage never writes a second processed row for a
raw event: when raw ids are distinct and every raw event starts with at
most one processed row, that invariant is preserved by a processing run.
A selected raw event ends the run with exactly one processed row when its
title is not blank and its unit of work raises no error; blank-titled and
errored events are skipped without a row, so the claimed
exactly-one-after-processing does not hold for them. -/
theorem processed_event_uniqueness (analyzer : List Char → Option ℚ)
    (errorOn : ℕ → Bool) (bs : ℕ) (st : PipelineState)
    (hids : (st.raw.map RawEv.id).Nodup)
    (hinv : ∀ rid, processedCountFor st rid ≤ 1) :
    (∀ rid, processedCountFor (processRawEvents analyzer errorOn bs st) rid ≤ 1) ∧
    (∀ ev ∈ (unprocessedEvents st).take bs, isBlank ev.title = false →
      errorOn ev.id = false →
      processedCountFor (processRawEvents analyzer errorOn bs st) ev.id = 1) := by
  have hrun : processRawEvents analyzer errorOn bs st =
      { raw := st.raw,
        processed := st.processed ++
          ((unprocessedEvents st).take bs).filterMap (rowOf analyzer errorOn) } :=
    foldl_processSingleEvent analyzer errorOn _ st
  have hbnodup : ((((unprocessedEvents st).take bs)).map RawEv.id).Nodup := by
    have hsub : ((unprocessedEvents st).take bs).Sublist st.raw :=
      (List.take_sublist _ _).trans (List.filter_sublist _)
    exact hids.sublist (hsub.map RawEv.id)
  have hcount : ∀ rid,
      processedCountFor (processRawEvents analyzer errorOn bs st) rid =
        processedCountFor st rid +
          (((unprocessedEvents st).take bs).filterMap
            (rowOf analyzer errorOn)).countP (fun p => p.raw_event_id == rid) := by
    intro rid
    rw [hrun]
    unfold processedCountFor
    dsimp only
    rw [List.countP_append]
  have hmem0 : ∀ ev ∈ (unprocessedEvents st).take bs,
      processedCountFor st ev.id = 0 := by
    intro ev hev
    have hmf : ev ∈ unprocessedEvents st :=
      (List.take_sublist _ _).subset hev
    have hp := (List.mem_filter.mp hmf).2
    simpa using hp
  constructor
  · intro rid
    rw [hcount rid]
    by_cases h0 : processedCountFor st rid = 0
    · rw [h0]
      have := le_trans (filterMap_countP_le analyzer errorOn rid _)
        (countP_id_le_one hbnodup rid)
      omega
    · have hz : ((unprocessedEvents st).take bs).countP
          (fun ev => ev.id == rid) = 0 := by
        rw [List.countP_eq_zero]
        intro ev hev
        simp only [beq_iff_eq]
        intro hEq
        exact h0 (hEq ▸ hmem0 ev hev)
      have hle := filterMap_countP_le analyzer errorOn rid
        ((unprocessedEvents st).take bs)
      rw [hz] at hle
      have h1 := hinv rid
      omega
  · intro ev hev hblank herr
    have hsome : rowOf analyzer errorOn ev ≠ none := by
      unfold rowOf
      rw [hblank, herr]
      simp
    have hge := one_le_filterMap_countP analyzer errorOn ev _ hev hsome
    have hle := le_trans (filterMap_countP_le analyzer errorOn ev.id _)
      (countP_id_le_one hbnodup ev.id)
    rw [hcount ev.id, hmem0 ev hev]
    omega

/-- C3 witness. -/
theorem processed_event_uniqueness_witness :
    (∀ rid, processedCountFor (processRawEvents (fun _ => some 0) (fun _ => false)
      10 ⟨[⟨1, "war".toList⟩], []⟩) rid ≤ 1) ∧
    (∀ ev ∈ (unprocessedEvents ⟨[⟨1, "war".toList⟩], []⟩).take 10,
      isBlank ev.title = false → false = false →
      processedCountFor (processRawEvents (fun _ => some 0) (fun _ => false)
        10 ⟨[⟨1, "war".toList⟩], []⟩) ev.id = 1) :=
  processed_event_uniqueness (fun _ => some 0) (fun _ => false) 10
    ⟨[⟨1, "war".toList⟩], []⟩ (by decide)
    (fun rid => by simp [processedCountFor])

/-- C3 counterexample.  A raw event whose title is whitespace-only is seen
by the run but gets no processed row at all, so there is not exactly one
ProcessedEvent for it after processing. -/
theorem processed_blank_title_counterexample :
    processRawEvents (fun _ => some 0) (fun _ => false) 100
      ⟨[⟨1, "  ".toList⟩], []⟩ = ⟨[⟨1, "  ".toList⟩], []⟩ ∧
    processedCountFor (processRawEvents (fun _ => some 0) (fun _ => false) 100
      ⟨[⟨1, "  ".toList⟩], []⟩) 1 = 0 := by
  decide

end GeoRisk
